import Mathlib

/-
Verification of the dataset/record algebra and the Groundhog attack protocol
of the privacy-sdg-toolbox repository, against its specification.

The embedding follows src/prive/datasets/dataset.py and
src/prive/attacks/groundhog.py.  A pandas DataFrame is modelled as a list of
rows, each carrying its index label (pandas keeps labels across concat/drop,
and positional access via iloc is independent of labels).  Randomised calls
(np.random.choice, DataFrame.sample) take the random draw as an explicit
oracle argument, constrained exactly as numpy/pandas constrain it.
-/

set_option autoImplicit false

namespace Prive

/-- Cell values of a tabular row.  dataset.py stores rows of a pandas
DataFrame; cells are modelled as integers, which suffices for the
value-equality reasoning the dataset algebra performs. -/
abbrev Value := Int

/-- A row of cell values. -/
abbrev Row := List Value

/-- A pandas index label. -/
abbrev Label := Int

/-- A pandas DataFrame: an ordered list of rows, each with its index label. -/
abbrev Frame := List (Label × Row)

/-- One column spec of the schema: a (type, representation) pair, as in the
JSON schema consumed by DataDescription. -/
abbrev ColSpec := String × String

/-- DataDescription: the ordered list of column specs.  Two datasets are
compatible exactly when their descriptions compare equal. -/
abbrev Desc := List ColSpec

/-- Index labels of a frame, in order. -/
def Frame.labels (f : Frame) : List Label := f.map Prod.fst

/-- Row values of a frame, in order. -/
def Frame.rows (f : Frame) : List Row := f.map Prod.snd

/-- DataFrame.iloc over a list of positions: positional selection, failing
with IndexError on any out-of-bounds position (used by get_records,
dataset.py lines 254-271). -/
def Frame.iloc (f : Frame) (ids : List Nat) : Option Frame :=
  if ∀ i ∈ ids, i < f.length then some (ids.filterMap (fun i => f.get? i))
  else none

/-- DataFrame.drop over a list of index labels: removes every row whose label
occurs in the list, raising KeyError when some listed label is absent from
the index (used by drop_records, dataset.py lines 293-303).  pandas builds
the new frame before assigning it, so on KeyError nothing is altered. -/
def Frame.dropLabels (f : Frame) (ls : List Label) : Option Frame :=
  if ∀ l ∈ ls, l ∈ Frame.labels f then
    some (f.filter (fun p => decide (p.1 ∉ ls)))
  else none

/-- TabularDataset (dataset.py lines 144-481): a data frame together with its
DataDescription. -/
structure TabularDataset where
  data : Frame
  description : Desc
deriving DecidableEq

/-- python int() truncates toward zero: on a rational in lowest terms this is
the numerator divided by the denominator with truncating division. -/
def py_int (q : ℚ) : Int := q.num.tdiv (q.den : Int)

/-- TabularDataset.sample (dataset.py lines 228-252).  The source starts with
`if frac:` which is Python truthiness, so the fraction overrides n_samples
only when it is given and nonzero.  pandas DataFrame.sample draws distinct
positions without replacement (the replace flag is not exposed by sample)
and raises ValueError when asked for more rows than the population, or for a
negative count; `sel` stands for the positions drawn by the random
generator, and the guard encodes both the pandas size check and the
well-formedness of that draw. -/
def TabularDataset.sample (d : TabularDataset) (n_samples : Nat) (frac : Option ℚ)
    (sel : List Nat) : Except String TabularDataset :=
  let n : Int := match frac with
    | some f => if f ≠ 0 then py_int (f * (d.data.length : ℚ)) else (n_samples : Int)
    | none => (n_samples : Int)
  if 0 ≤ n ∧ n.toNat ≤ d.data.length ∧ sel.length = n.toNat ∧ sel.Nodup ∧
      (∀ i ∈ sel, i < d.data.length) then
    Except.ok ⟨sel.filterMap (fun i => d.data.get? i), d.description⟩
  else Except.error "ValueError: cannot take a larger sample than population"

/-- TabularDataset.get_records (dataset.py lines 254-271): positional
selection through DataFrame.iloc, keeping the description. -/
def TabularDataset.get_records (d : TabularDataset) (ids : List Nat) :
    Except String TabularDataset :=
  match Frame.iloc d.data ids with
  | some f => Except.ok ⟨f, d.description⟩
  | none => Except.error "IndexError: positional indexers are out-of-bounds"

/-- TabularDataset.drop_records with in_place=False (dataset.py lines
273-303).  When record_ids is empty the source substitutes
np.random.choice(self.data.index, size=n), whose output is the oracle
argument `draws` (numpy chooses WITH replacement, so `draws` may repeat
labels); otherwise `draws` is unused. -/
def TabularDataset.drop_records (d : TabularDataset) (record_ids : List Label)
    (n : Nat) (draws : List Label) : Except String TabularDataset :=
  let ids := if record_ids.isEmpty then draws else record_ids
  match Frame.dropLabels d.data ids with
  | some f => Except.ok ⟨f, d.description⟩
  | none => Except.error "KeyError: labels not found in axis"

/-- TabularDataset.__add__ (dataset.py lines 409-427): asserts equal
descriptions, then concatenates the two frames, left rows first (pd.concat
keeps the original index labels). -/
def TabularDataset.add (d other : TabularDataset) : Except String TabularDataset :=
  if d.description = other.description then
    Except.ok ⟨d.data ++ other.data, d.description⟩
  else Except.error "AssertionError: Both datasets must have the same data description"

/-- TabularDataset.add_records with in_place=False (dataset.py lines
305-331): delegates to __add__. -/
def TabularDataset.add_records (d records : TabularDataset) :
    Except String TabularDataset :=
  d.add records

/-- TabularDataset.replace with in_place=False (dataset.py lines 333-365):
checks the records_out length when records_out is non-empty, then drops
(passing n=len(records_in) as the backup count for the random branch) and
adds the incoming records. -/
def TabularDataset.replace (d records_in : TabularDataset)
    (records_out : List Label) (draws : List Label) : Except String TabularDataset :=
  if records_out.length > 0 ∧ records_out.length ≠ records_in.data.length then
    Except.error "AssertionError: Number of records out must equal number of records in"
  else
    (d.drop_records records_out records_in.data.length draws).bind
      (fun reduced => reduced.add_records records_in)

/-- TabularDataset.empty (dataset.py lines 396-407): get_records([]). -/
def TabularDataset.empty (d : TabularDataset) : Except String TabularDataset :=
  d.get_records []

/-- TabularDataset.drop_records with in_place=True (dataset.py lines
299-301): same computation, but the outcome is the final object state paired
with the error, if any; on KeyError the assignment to self.data never
happens, so the state is unchanged. -/
def TabularDataset.drop_records_in_place (d : TabularDataset)
    (record_ids : List Label) (n : Nat) (draws : List Label) :
    TabularDataset × Option String :=
  let ids := if record_ids.isEmpty then draws else record_ids
  match Frame.dropLabels d.data ids with
  | some f => (⟨f, d.description⟩, none)
  | none => (d, some "KeyError: labels not found in axis")

/-- TabularDataset.add_records with in_place=True (dataset.py lines
324-328): asserts equal descriptions before assigning the concatenation, so
a failed assertion leaves the state unchanged. -/
def TabularDataset.add_records_in_place (d records : TabularDataset) :
    TabularDataset × Option String :=
  if d.description = records.description then
    (⟨d.data ++ records.data, d.description⟩, none)
  else (d, some "AssertionError: Both datasets must have the same data description")

/-- TabularDataset.replace with in_place=True (dataset.py lines 353-360):
the records_out length assertion runs first; then drop_records mutates the
state, and only afterwards does add_records check the descriptions, so an
exception raised there leaves the drop in place. -/
def TabularDataset.replace_in_place (d records_in : TabularDataset)
    (records_out : List Label) (draws : List Label) :
    TabularDataset × Option String :=
  if records_out.length > 0 ∧ records_out.length ≠ records_in.data.length then
    (d, some "AssertionError: Number of records out must equal number of records in")
  else
    match d.drop_records_in_place records_out records_in.data.length draws with
    | (s1, some e) => (s1, some e)
    | (s1, none) => s1.add_records_in_place records_in

/-- TabularRecord (dataset.py lines 484-559): a one-row dataset together
with the stored identifier. -/
structure TabularRecord where
  data : Frame
  description : Desc
  id : Label
deriving DecidableEq

/-- Upcast of a TabularRecord to the TabularDataset it also is. -/
def TabularRecord.toDataset (r : TabularRecord) : TabularDataset :=
  ⟨r.data, r.description⟩

/-- TabularRecord.from_dataset (dataset.py lines 496-516): requires exactly
one row and takes the identifier from that row's index label
(data.index.values[0]). -/
def TabularRecord.from_dataset (t : TabularDataset) : Except String TabularRecord :=
  match t.data with
  | [p] => Except.ok ⟨[p], t.description, p.1⟩
  | _ => Except.error "AssertionError: Parent TabularDataset object must contain only 1 record"

/-- Distinct keys of a list in order of first appearance, accumulating the
keys already seen.  This is how pandas factorizes join keys when merging
with sort=False: codes are assigned in order of first appearance over the
left keys followed by the right keys. -/
def keysFirstAux (seen : List Row) : List Row → List Row
  | [] => []
  | r :: rest =>
    if r ∈ seen then keysFirstAux seen rest
    else r :: keysFirstAux (r :: seen) rest

/-- Distinct keys in order of first appearance. -/
def keysFirst (l : List Row) : List Row := keysFirstAux [] l

/-- pd.merge(left, right, how=outer, indicator=True) joining on all (shared)
columns, i.e. on whole row values, as called by TabularRecord.get_id
(dataset.py line 536).  With the default sort=False, pandas factorizes the
keys in order of first appearance over left then right, and
libjoin.full_outer_join emits one group per key code in code order (unlike
the how=left path, there is no re-ordering step back to frame order).  A
key held by both sides contributes one output row per left/right pair,
marked both; keys on one side only contribute their rows marked left_only
or right_only.  Rows that join on all columns are identical, so each group
is a replicated row.  The output carries a fresh RangeIndex, i.e. positions. -/
def merge_outer (left right : List Row) : List (Row × String) :=
  (keysFirst (left ++ right)).flatMap (fun k =>
    let ln := left.countP (fun x => decide (x = k))
    let rn := right.countP (fun x => decide (x = k))
    if ln = 0 then List.replicate rn (k, "right_only")
    else if rn = 0 then List.replicate ln (k, "left_only")
    else List.replicate (ln * rn) (k, "both"))

/-- Positions (RangeIndex labels) of the merged rows whose indicator column
equals both, starting from offset `off`. -/
def markedPositions : List (Row × String) → Nat → List Nat
  | [], _ => []
  | p :: rest, off =>
    if p.2 = "both" then off :: markedPositions rest (off + 1)
    else markedPositions rest (off + 1)

/-- TabularRecord.get_id (dataset.py lines 518-541): outer-merges the
dataset with the record on row values, requires exactly one row marked
both, and returns that row's index in the merged frame (a position, since
the merged frame carries a fresh RangeIndex). -/
def TabularRecord.get_id (r : TabularRecord) (t : TabularDataset) :
    Except String Nat :=
  let merged := merge_outer (Frame.rows t.data) (Frame.rows r.data)
  match markedPositions merged 0 with
  | [j] => Except.ok j
  | _ => Except.error "AssertionError: more than one copy of this record is present on the dataset"

/-- TabularRecord.set_id (dataset.py lines 543-559): assigns the id
attribute first, then re-indexes the one-row frame with the identifier;
pandas raises ValueError on an index length mismatch, which would leave the
id overwritten but the frame untouched. -/
def TabularRecord.set_id (r : TabularRecord) (x : Label) :
    TabularRecord × Option String :=
  match r.data with
  | [p] => (⟨[(x, p.2)], r.description, x⟩, none)
  | _ => (⟨r.data, r.description, x⟩, some "ValueError: length mismatch")

/-
The Groundhog attack protocol (src/prive/attacks/groundhog.py).

The SetClassifier (prive/attacks/set_classifiers.py) is not part of the
sources under verification.  Modelled from the spec: the classifier
capability exposes predict, returning one continuous membership score per
dataset; scores are membership probabilities, expected in [0, 1].
-/
structure SetClassifier where
  predict : List TabularDataset → List ℚ

/-- The trained flag is the attack state (groundhog.py line 65 sets it to
False in __init__, line 102 to True at the end of train). -/
structure Groundhog where
  trained : Bool
deriving DecidableEq

/-- Groundhog.__init__ leaves the attack untrained. -/
def Groundhog.mkInit : Groundhog := ⟨false⟩

/-- Groundhog.train (groundhog.py lines 69-102): after the classifier fit
succeeds, trained is set to True unconditionally. -/
def Groundhog.train (_g : Groundhog) : Groundhog := ⟨true⟩

/-- np.round to zero decimals: round half to even. -/
def np_round (q : ℚ) : ℚ :=
  let f : Int := ⌊q⌋
  if q - f < 1 / 2 then f
  else if 1 / 2 < q - f then f + 1
  else if f % 2 = 0 then f else f + 1

/-- Groundhog.attack (groundhog.py lines 104-123): asserts the trained flag,
then rounds each score of classifier.predict(datasets). -/
def Groundhog.attack (g : Groundhog) (clf : SetClassifier)
    (datasets : List TabularDataset) : Except String (List ℚ) :=
  if g.trained then Except.ok ((clf.predict datasets).map np_round)
  else Except.error "AssertionError: Attack must first be trained."

/-
Attribute-level model of Groundhog.attack_score (groundhog.py lines
134-165).  Unlike attack, attack_score reads attributes and module names
that are never bound: self.FeatureSet, self.metadata and self.Classifier are
not assigned anywhere in the class (__init__ assigns self.classifier, lower
case), and convert_df_to_array is not imported in groundhog.py.  To settle
this at the level where it is decided, Python attribute lookup is modelled
explicitly over the list of attributes an instance actually carries.
-/

/-- A Python value, as far as attack_score inspects one. -/
inductive PyVal where
  | pyNone
  | pyBool (b : Bool)
  | pyStr (s : String)
  | pyObj (tag : String)
deriving DecidableEq

/-- The attribute dictionary of a Python object instance. -/
abbrev Attrs := List (String × PyVal)

/-- Python attribute lookup: raises AttributeError when the name is absent. -/
def getattr (attrs : Attrs) (name : String) : Except String PyVal :=
  match attrs.find? (fun p => decide (p.1 = name)) with
  | some p => Except.ok p.2
  | none => Except.error ("AttributeError: " ++ name)

/-- Python attribute assignment. -/
def setattr (attrs : Attrs) (name : String) (v : PyVal) : Attrs :=
  (name, v) :: attrs.filter (fun p => decide (p.1 ≠ name))

/-- Attributes assigned by Groundhog.__init__ (groundhog.py lines 62-67).
Modelled from the spec: the Attack base class in base_classes.py is not
under src/; it only declares the abstract attack interface, and per the
spec the feature-extraction capability is optional and separately attached
to an Attack instance, so a freshly initialised Groundhog carries exactly
the attributes that __init__ assigns. -/
def groundhog_init_attrs (clf desc : String) : Attrs :=
  [("classifier", PyVal.pyObj clf),
   ("data_description", PyVal.pyObj desc),
   ("trained", PyVal.pyBool false),
   ("__name__", PyVal.pyStr (clf ++ "Groundhog"))]

/-- Groundhog.train at the attribute level: the classifier is fitted (an
external call that adds no attribute to self) and trained is set to True. -/
def groundhog_train_attrs (attrs : Attrs) : Attrs :=
  setattr attrs "trained" (PyVal.pyBool true)

/-- Names bound at module level in groundhog.py: its imports and its class.
convert_df_to_array is not among them (the only imports are annotations,
TYPE_CHECKING, ABC, abstractmethod, np, pd, Attack and simplefilter). -/
def groundhog_module_names : List String :=
  ["annotations", "TYPE_CHECKING", "ABC", "abstractmethod", "np", "pd",
   "Attack", "simplefilter", "Groundhog"]

/-- Groundhog.attack_score (groundhog.py lines 134-165) executed over the
attribute model.  `synT` is the list of input datasets (as frames),
`firstIsDF` tells whether synT[0] is a pandas DataFrame (a TabularDataset is
not), and `extract` and `predict_proba` are oracles for the external
feature-extraction and classifier capabilities reached only if the
attribute and name lookups succeed.  The steps mirror the source: assert
self.trained, read self.FeatureSet, branch on it and on isinstance(synT[0],
pd.DataFrame) (resolving convert_df_to_array or .flatten() as needed), read
self.Classifier, call predict_proba, and index each probability pair with
the corresponding secret. -/
def attack_score_run (attrs : Attrs) (synT : List Frame) (secret : List Nat)
    (firstIsDF : Bool) (extract : Frame → List ℚ)
    (predict_proba : List (List ℚ) → List (List ℚ)) : Except String (List ℚ) := do
  let tr ← getattr attrs "trained"
  if tr = PyVal.pyBool true then
    let fs ← getattr attrs "FeatureSet"
    let feats ←
      if fs ≠ PyVal.pyNone then
        pure (synT.map extract)
      else if firstIsDF then
        if groundhog_module_names.contains "convert_df_to_array" then
          pure (synT.map extract)
        else throw "NameError: name convert_df_to_array is not defined"
      else throw "AttributeError: flatten"
    let _clf ← getattr attrs "Classifier"
    let probs := predict_proba feats
    (probs.zip secret).mapM (fun ps =>
      match ps.1.get? ps.2 with
      | some p => pure p
      | none => throw "IndexError: list index out of range")
  else throw "AssertionError: Attack must first be trained."

end Prive


namespace Prive

lemma countP_split {α : Type} (l : List α) (p q : α → Bool) :
    l.countP p = l.countP (fun a => p a && q a) + l.countP (fun a => p a && !q a) := by
  induction l with
  | nil => simp
  | cons a l ih =>
    simp only [List.countP_cons]
    cases hp : p a <;> cases hq : q a <;> simp [hp, hq] <;> omega

lemma countP_or_disjoint {α : Type} (l : List α) (p q : α → Bool)
    (h : ∀ a ∈ l, ¬(p a = true ∧ q a = true)) :
    l.countP (fun a => p a || q a) = l.countP p + l.countP q := by
  induction l with
  | nil => simp
  | cons a l ih =>
    have ha := h a (by simp)
    have ih' := ih (fun b hb => h b (by simp [hb]))
    simp only [List.countP_cons]
    cases hp : p a <;> cases hq : q a <;> simp [hp, hq] at ha ⊢ <;> omega

lemma add_ok (A B : TabularDataset) (h : A.description = B.description) :
    A.add B = Except.ok ⟨A.data ++ B.data, A.description⟩ := by
  simp [TabularDataset.add, h]

/-- C6: for description-equal datasets, A + B has len(A) + len(B) rows, every
labelled row appears with its multiplicity retained and with the rows of A
first (positions below len(A) hold the rows of A, position len(A)+j holds row
j of B); for unequal descriptions the addition fails fast with the assertion
error. -/
theorem C6_concat_union (A B : TabularDataset) :
    (A.description = B.description →
      ∃ t, A.add B = Except.ok t ∧
        t.data.length = A.data.length + B.data.length ∧
        (∀ v : Label × Row, t.data.count v = A.data.count v + B.data.count v) ∧
        (∀ i, i < A.data.length → t.data[i]? = A.data[i]?) ∧
        (∀ j : Nat, t.data[A.data.length + j]? = B.data[j]?)) ∧
    (A.description ≠ B.description →
      A.add B = Except.error "AssertionError: Both datasets must have the same data description") := by
  constructor
  · intro h
    refine ⟨⟨A.data ++ B.data, A.description⟩, add_ok A B h, by simp,
      fun v => List.count_append v A.data B.data, ?_, ?_⟩
    · intro i hi
      exact List.getElem?_append_left hi
    · intro j
      rw [List.getElem?_append_right (by omega)]
      simp
  · intro h
    simp [TabularDataset.add, h]

lemma np_round_of_unit (q : ℚ) (h0 : 0 ≤ q) (h1 : q ≤ 1) :
    np_round q = 0 ∨ np_round q = 1 := by
  unfold np_round
  rcases h1.eq_or_lt with rfl | hlt
  · norm_num
  · have hf : ⌊q⌋ = 0 := Int.floor_eq_zero_iff.mpr ⟨h0, hlt⟩
    rw [hf]
    push_cast
    split_ifs <;> norm_num

/-- C7: a freshly initialised attack is untrained and attack() fails with the
precondition assertion; after a successful train (which always sets trained),
attack returns exactly one rounded guess per input dataset, in input order,
and each guess is 0 or 1 whenever the classifier scores lie in [0, 1] (the
classifier is modelled from the spec, set_classifiers.py not being under
src). -/
theorem C7_attack_state (clf : SetClassifier) (datasets : List TabularDataset) :
    (Groundhog.mkInit.trained = false ∧
      Groundhog.mkInit.attack clf datasets =
        Except.error "AssertionError: Attack must first be trained.") ∧
    ((clf.predict datasets).length = datasets.length →
      (∀ q ∈ clf.predict datasets, 0 ≤ q ∧ q ≤ 1) →
      ∀ g : Groundhog,
        (g.train).trained = true ∧
        (g.train).attack clf datasets = Except.ok ((clf.predict datasets).map np_round) ∧
        ((clf.predict datasets).map np_round).length = datasets.length ∧
        (∀ i : Nat, ((clf.predict datasets).map np_round)[i]? =
          ((clf.predict datasets)[i]?).map np_round) ∧
        (∀ q ∈ (clf.predict datasets).map np_round, q = 0 ∨ q = 1)) := by
  refine ⟨⟨rfl, rfl⟩, ?_⟩
  intro hlen hunit g
  refine ⟨rfl, rfl, by simpa using hlen, fun i => List.getElem?_map np_round (clf.predict datasets) i, ?_⟩
  intro q hq
  rcases List.mem_map.mp hq with ⟨a, ha, rfl⟩
  exact np_round_of_unit a (hunit a ha).1 (hunit a ha).2

/-- C7 witness: the constant-zero classifier on one empty dataset. -/
theorem C7_witness :
    Groundhog.mkInit.attack ⟨fun ds => ds.map (fun _ => (0 : ℚ))⟩ [⟨[], []⟩] =
        Except.error "AssertionError: Attack must first be trained." ∧
    (Groundhog.train ⟨false⟩).attack ⟨fun ds => ds.map (fun _ => (0 : ℚ))⟩ [⟨[], []⟩] =
        Except.ok ([(0 : ℚ)].map np_round) ∧
    (np_round 0 = 0 ∨ np_round 0 = 1) := by
  have h := C7_attack_state ⟨fun ds => ds.map (fun _ => (0 : ℚ))⟩ [⟨[], []⟩]
  have h2 := h.2 (by simp) (by intro q hq; simp at hq; simp [hq]) ⟨false⟩
  exact ⟨h.1.2, h2.2.1, h2.2.2.2.2 (np_round 0) (by simp)⟩

/-- C10: on a one-row record, set_id(x) assigns both the id attribute and the
index label of the single underlying row, reports no error (set_id returns
nothing), and re-deriving the record via from_dataset yields identifier x. -/
theorem C10_set_id_roundtrip (r : TabularRecord) (x : Label) (p : Label × Row)
    (h : r.data = [p]) :
    (r.set_id x).2 = none ∧
    (r.set_id x).1.id = x ∧
    (r.set_id x).1.data = [(x, p.2)] ∧
    TabularRecord.from_dataset ((r.set_id x).1.toDataset) =
      Except.ok ⟨[(x, p.2)], r.description, x⟩ := by
  simp [TabularRecord.set_id, h, TabularRecord.toDataset, TabularRecord.from_dataset]

/-- C10 witness: relabelling the record with row [5] from 0 to 7. -/
theorem C10_witness :
    ((⟨[(0, [5])], [], 0⟩ : TabularRecord).set_id 7).2 = none ∧
    ((⟨[(0, [5])], [], 0⟩ : TabularRecord).set_id 7).1.id = 7 ∧
    ((⟨[(0, [5])], [], 0⟩ : TabularRecord).set_id 7).1.data = [(7, [5])] ∧
    TabularRecord.from_dataset (((⟨[(0, [5])], [], 0⟩ : TabularRecord).set_id 7).1.toDataset) =
      Except.ok ⟨[(7, [5])], [], 7⟩ :=
  C10_set_id_roundtrip ⟨[(0, [5])], [], 0⟩ 7 (0, [5]) rfl

/-- C1: the claim states that for a trained attack, attack_score returns one
probability per input, equal to probabilities[i][secret[i]] and lying in
[0, 1].  On the code this is unreachable: attack_score first reads
self.FeatureSet, an attribute no Groundhog instance has (__init__ assigns
only classifier, data_description, trained and __name__; self.Classifier and
convert_df_to_array further down are equally unbound), so for every trained
instance the call raises AttributeError instead of returning probabilities. -/
theorem C1_attack_score_attribute_error (clf desc : String) (synT : List Frame)
    (secret : List Nat) (firstIsDF : Bool) (extract : Frame → List ℚ)
    (predict_proba : List (List ℚ) → List (List ℚ)) :
    attack_score_run (groundhog_train_attrs (groundhog_init_attrs clf desc))
      synT secret firstIsDF extract predict_proba =
      Except.error "AttributeError: FeatureSet" := rfl

/-- C5: the claim says the random branch of drop_records selects n distinct
indices so that exactly n rows are dropped.  The code calls np.random.choice
without replace=False, which samples with replacement, so [0, 0] is a legal
draw of size n=2 from the index [0, 1]; pandas drop then removes one row, so
a two-row dataset keeps 1 row where the claim requires len(D) - n = 0. -/
theorem C5_random_drop_replacement :
    (TabularDataset.drop_records ⟨[(0, [7]), (1, [8])], []⟩ [] 2 [0, 0]).map
        (fun t => t.data.length) = Except.ok 1 ∧
    [(0 : Label), 0].length = 2 ∧
    [(0 : Label), 0].all (fun l => decide (l ∈ Frame.labels [(0, [7]), (1, [8])])) = true :=
  ⟨rfl, rfl, rfl⟩

/-- C2 counterexample: replace(records_in, records_out=[0], in_place=True) on
a two-row dataset with a schema-mismatched records_in passes the length
check, mutates the dataset by dropping row 0, and only then fails the schema
assertion inside add_records: the final state differs from the original
dataset, so the failed validation left a partial mutation behind. -/
theorem C2_counterexample :
    TabularDataset.replace_in_place ⟨[(0, [1]), (1, [2])], [("a", "a")]⟩
        ⟨[(5, [9])], [("b", "b")]⟩ [0] [] =
      (⟨[(1, [2])], [("a", "a")]⟩,
       some "AssertionError: Both datasets must have the same data description") ∧
    (⟨[(1, [2])], [("a", "a")]⟩ : TabularDataset) ≠ ⟨[(0, [1]), (1, [2])], [("a", "a")]⟩ :=
  ⟨rfl, by decide⟩

/-- C2 amended: in replace(..., in_place=True) the records_out length check
runs before any mutation, so a length-validation failure leaves the dataset
unchanged; but the schema check happens inside add_records only after
drop_records has mutated the dataset, so on a schema mismatch the drop
persists alongside the reported error. -/
theorem C2_inplace_replace_validation :
    (∀ (d rin : TabularDataset) (rout draws : List Label),
      rout.length > 0 → rout.length ≠ rin.data.length →
      TabularDataset.replace_in_place d rin rout draws =
        (d, some "AssertionError: Number of records out must equal number of records in")) ∧
    (∀ (d rin : TabularDataset) (rout draws : List Label),
      rout ≠ [] → rout.length = rin.data.length →
      d.description ≠ rin.description →
      (∀ l ∈ rout, l ∈ Frame.labels d.data) →
      TabularDataset.replace_in_place d rin rout draws =
        (⟨d.data.filter (fun p => decide (p.1 ∉ rout)), d.description⟩,
         some "AssertionError: Both datasets must have the same data description")) := by
  constructor
  · intro d rin rout draws h1 h2
    simp [TabularDataset.replace_in_place, h1, h2]
  · intro d rin rout draws hne hlen hdesc hmem
    have hie : rout.isEmpty = false := by
      cases rout with
      | nil => exact absurd rfl hne
      | cons a t => rfl
    have hid : (if rout.isEmpty then draws else rout) = rout := by simp [hie]
    simp only [TabularDataset.replace_in_place, TabularDataset.drop_records_in_place,
      TabularDataset.add_records_in_place, Frame.dropLabels]
    rw [if_neg (by simp [hlen]), hid, if_pos hmem]
    simp [hdesc]

/-- C2 witness: both branches of the amended statement at concrete inputs. -/
theorem C2_witness :
    TabularDataset.replace_in_place ⟨[(0, [1])], []⟩ ⟨[], []⟩ [0] [] =
      (⟨[(0, [1])], []⟩,
       some "AssertionError: Number of records out must equal number of records in") ∧
    TabularDataset.replace_in_place ⟨[(0, [1]), (1, [2])], [("a", "a")]⟩
        ⟨[(5, [9])], [("b", "b")]⟩ [0] [] =
      (⟨([(0, [1]), (1, [2])] : Frame).filter (fun p => decide (p.1 ∉ ([0] : List Label))),
         [("a", "a")]⟩,
       some "AssertionError: Both datasets must have the same data description") := by
  constructor
  · exact C2_inplace_replace_validation.1 ⟨[(0, [1])], []⟩ ⟨[], []⟩ [0] []
      (by decide) (by decide)
  · exact C2_inplace_replace_validation.2 ⟨[(0, [1]), (1, [2])], [("a", "a")]⟩
      ⟨[(5, [9])], [("b", "b")]⟩ [0] [] (by decide) (by decide) (by decide) (by decide)

end Prive

namespace Prive

lemma length_filterMap_get {α : Type} (l : List α) (sel : List Nat)
    (h : ∀ i ∈ sel, i < l.length) :
    (sel.filterMap (fun i => l.get? i)).length = sel.length := by
  induction sel with
  | nil => simp
  | cons i sel ih =>
    have hi := List.getElem?_eq_getElem (h i (by simp))
    simp [List.filterMap_cons, hi, ih (fun j hj => h j (by simp [hj]))]
    intro a ha
    rw [List.getElem?_eq_getElem (h a (by simp [ha]))]
    rfl

lemma countP_add_countP_not {α : Type} (l : List α) (p : α → Bool) :
    l.countP p + l.countP (fun a => !p a) = l.length := by
  induction l with
  | nil => simp
  | cons a l ih =>
    simp only [List.countP_cons]
    cases hp : p a <;> simp [hp] <;> omega

lemma countP_label_mem (d : Frame) (S : List Label) (hnd : S.Nodup)
    (h1 : ∀ s ∈ S, d.countP (fun p => decide (p.1 = s)) = 1) :
    d.countP (fun p => decide (p.1 ∈ S)) = S.length := by
  induction S with
  | nil => simp
  | cons s S ih =>
    rcases List.nodup_cons.mp hnd with ⟨hs, hnd'⟩
    have hcong : d.countP (fun p => decide (p.1 ∈ s :: S)) =
        d.countP (fun p => decide (p.1 = s) || decide (p.1 ∈ S)) :=
      List.countP_congr (by intro p _; simp [List.mem_cons])
    have hdisj : ∀ p ∈ d, ¬((fun p => decide (p.1 = s)) p = true ∧
        (fun p => decide (p.1 ∈ S)) p = true) := by
      intro p _ hand
      rcases hand with ⟨ha, hb⟩
      simp only [decide_eq_true_eq] at ha hb
      exact hs (ha ▸ hb)
    rw [hcong, countP_or_disjoint d _ _ hdisj, h1 s (by simp),
      ih hnd' (fun u hu => h1 u (by simp [hu]))]
    simp [Nat.add_comm]

/-- C4 counterexample: with duplicate index labels, pandas drop removes every
row carrying a dropped label: on a dataset with two rows both labelled 0,
drop_records([0]) leaves 0 rows, not len(D) - len(S) = 1. -/
theorem C4_counterexample :
    (TabularDataset.drop_records ⟨[(0, [7]), (0, [8])], []⟩ [0] 1 []).map
        (fun t => t.data.length) = Except.ok 0 ∧
    ([(0, [7]), (0, [8])] : Frame).length - [(0 : Label)].length = 1 :=
  ⟨rfl, rfl⟩

/-- C4 amended: for a non-empty duplicate-free list S of labels, each
labelling exactly one row of D, drop_records(S) succeeds and returns a
dataset with len(D) - len(S) rows in which no dropped label remains and the
multiplicity of every row value decreases exactly by its count among the
dropped rows (duplicates elsewhere survive); D itself is untouched, the
non-in-place path never assigning self.data. -/
theorem C4_drop_records_disjoint (d : TabularDataset) (S draws : List Label)
    (hne : S ≠ []) (hnd : S.Nodup)
    (h1 : ∀ s ∈ S, d.data.countP (fun p => decide (p.1 = s)) = 1) :
    ∃ t, d.drop_records S 1 draws = Except.ok t ∧
      t.data.length = d.data.length - S.length ∧
      (∀ p ∈ t.data, p.1 ∉ S) ∧
      (∀ v : Row,
        (Frame.rows t.data).countP (fun x => decide (x = v)) +
          d.data.countP (fun p => decide (p.1 ∈ S) && decide (p.2 = v)) =
        (Frame.rows d.data).countP (fun x => decide (x = v))) := by
  have hmem : ∀ s ∈ S, s ∈ Frame.labels d.data := by
    intro s hs
    have hpos : 0 < d.data.countP (fun p => decide (p.1 = s)) := by
      rw [h1 s hs]; omega
    rcases List.countP_pos_iff.mp hpos with ⟨p, hp, hps⟩
    simp only [decide_eq_true_eq] at hps
    exact List.mem_map.mpr ⟨p, hp, hps⟩
  have hie : S.isEmpty = false := by
    cases S with
    | nil => exact absurd rfl hne
    | cons a t => rfl
  have hid : (if S.isEmpty then draws else S) = S := by simp [hie]
  have hS : d.data.countP (fun p => decide (p.1 ∈ S)) = S.length :=
    countP_label_mem d.data S hnd h1
  refine ⟨⟨d.data.filter (fun p => decide (p.1 ∉ S)), d.description⟩, ?_, ?_, ?_, ?_⟩
  · simp only [TabularDataset.drop_records, Frame.dropLabels]
    rw [hid, if_pos hmem]
  · show (d.data.filter (fun p => decide (p.1 ∉ S))).length = d.data.length - S.length
    rw [← List.countP_eq_length_filter]
    have hnotc : d.data.countP (fun p => decide (p.1 ∉ S)) =
        d.data.countP (fun p => !decide (p.1 ∈ S)) :=
      List.countP_congr (by intro p _; simp)
    have hnot := countP_add_countP_not d.data (fun p => decide (p.1 ∈ S))
    omega
  · intro p hp
    have h := List.mem_filter.mp hp
    simpa using h.2
  · intro v
    have e1 : (Frame.rows (d.data.filter (fun p => decide (p.1 ∉ S)))).countP
          (fun x => decide (x = v)) =
        d.data.countP (fun p => decide (p.2 = v) && decide (p.1 ∉ S)) := by
      simp only [Frame.rows]
      rw [List.countP_map, List.countP_filter]
      rfl
    have e2 : (Frame.rows d.data).countP (fun x => decide (x = v)) =
        d.data.countP (fun p => decide (p.2 = v)) := by
      simp only [Frame.rows]
      rw [List.countP_map]
      rfl
    rw [e1, e2]
    have hsplit := countP_split d.data (fun p => decide (p.2 = v)) (fun p => decide (p.1 ∈ S))
    have c1 : d.data.countP (fun p => decide (p.2 = v) && !decide (p.1 ∈ S)) =
        d.data.countP (fun p => decide (p.2 = v) && decide (p.1 ∉ S)) :=
      List.countP_congr (by intro p _; simp)
    have c2 : d.data.countP (fun p => decide (p.2 = v) && decide (p.1 ∈ S)) =
        d.data.countP (fun p => decide (p.1 ∈ S) && decide (p.2 = v)) :=
      List.countP_congr (by intro p _; simp [Bool.and_comm])
    omega

/-- C4 witness: dropping label 1 from a three-row dataset with a duplicated
row value at labels 0 and 2. -/
theorem C4_witness :
    ∃ t, TabularDataset.drop_records ⟨[(0, [7]), (1, [8]), (2, [7])], []⟩ [1] 1 [] =
        Except.ok t ∧
      t.data.length = ([(0, [7]), (1, [8]), (2, [7])] : Frame).length - [(1 : Label)].length ∧
      (∀ p ∈ t.data, p.1 ∉ [(1 : Label)]) ∧
      (∀ v : Row,
        (Frame.rows t.data).countP (fun x => decide (x = v)) +
          ([(0, [7]), (1, [8]), (2, [7])] : Frame).countP
            (fun p => decide (p.1 ∈ [(1 : Label)]) && decide (p.2 = v)) =
        (Frame.rows ([(0, [7]), (1, [8]), (2, [7])] : Frame)).countP
          (fun x => decide (x = v))) :=
  C4_drop_records_disjoint ⟨[(0, [7]), (1, [8]), (2, [7])], []⟩ [1] []
    (by decide) (by decide) (by decide)

end Prive

namespace Prive

/-- C8 counterexample: the source guards the fraction with Python truthiness
(`if frac:`), so frac=0.0 is treated as absent: sample(n_samples=1, frac=0.0)
returns 1 row although int(0.0 * len(D)) = 0, refuting the claim that a given
fraction always overrides n. -/
theorem C8_counterexample :
    (TabularDataset.sample ⟨[(0, [1]), (1, [2])], []⟩ 1 (some 0) [0]).map
        (fun t => t.data.length) = Except.ok 1 ∧
    (py_int (0 * ((([((0 : Label), [(1 : Value)]), (1, [2])] : Frame).length : Nat) : ℚ))).toNat = 0 :=
  ⟨rfl, by norm_num [py_int]⟩

/-- C8 amended: for a nonzero fraction the n_samples argument is ignored and
the result has int(frac * len(D)) rows; sampling more rows than the
population fails, replacement not being requestable through sample; and every
row of the result is a row of the source dataset. -/
theorem C8_sample_contract (d : TabularDataset) (n_samples : Nat) (f : ℚ) (sel : List Nat) :
    (f ≠ 0 → ∀ t, d.sample n_samples (some f) sel = Except.ok t →
      t.data.length = (py_int (f * (d.data.length : ℚ))).toNat) ∧
    (d.data.length < n_samples →
      d.sample n_samples none sel =
        Except.error "ValueError: cannot take a larger sample than population") ∧
    (∀ t, d.sample n_samples none sel = Except.ok t → ∀ p ∈ t.data, p ∈ d.data) := by
  refine ⟨?_, ?_, ?_⟩
  · intro hf t ht
    simp only [TabularDataset.sample, if_pos hf] at ht
    split at ht
    · rename_i hg
      obtain ⟨h0, hle, hlen, hnd, hb⟩ := hg
      injection ht with ht'
      rw [← ht']
      show (sel.filterMap (fun i => d.data.get? i)).length = _
      rw [length_filterMap_get d.data sel hb, hlen]
    · cases ht
  · intro hlt
    simp only [TabularDataset.sample]
    rw [if_neg]
    rintro ⟨h0, h2, h3⟩
    omega
  · intro t ht p hp
    simp only [TabularDataset.sample] at ht
    split at ht
    · injection ht with ht'
      rw [← ht'] at hp
      rcases List.mem_filterMap.mp hp with ⟨i, hi, hgi⟩
      exact List.get?_mem hgi
    · cases ht

/-- C8 witness: the three parts of the amended statement at concrete inputs
(fraction one half of two rows, oversized n, membership of the sampled
row). -/
theorem C8_witness :
    ([((1 : Label), [(2 : Value)])] : Frame).length =
      (py_int ((1 / 2 : ℚ) *
        ((([((0 : Label), [(1 : Value)]), (1, [2])] : Frame).length : Nat) : ℚ))).toNat ∧
    TabularDataset.sample ⟨[(0, [1]), (1, [2])], []⟩ 3 none [] =
      Except.error "ValueError: cannot take a larger sample than population" ∧
    ((1 : Label), [(2 : Value)]) ∈ ([((0 : Label), [(1 : Value)]), (1, [2])] : Frame) := by
  refine ⟨?_, ?_, ?_⟩
  · exact (C8_sample_contract ⟨[(0, [1]), (1, [2])], []⟩ 5 (1 / 2) [1]).1 (by norm_num)
      ⟨[(1, [2])], []⟩ (by norm_num [TabularDataset.sample, py_int]; rfl)
  · exact (C8_sample_contract ⟨[(0, [1]), (1, [2])], []⟩ 3 (1 / 2) []).2.1 (by decide)
  · exact (C8_sample_contract ⟨[(0, [1]), (1, [2])], []⟩ 1 (1 / 2) [1]).2.2
      ⟨[(1, [2])], []⟩ rfl (1, [2]) (by decide)

lemma except_bind_ok {ε α β : Type} (x : Except ε α) (f : α → Except ε β) (b : β)
    (h : x.bind f = Except.ok b) : ∃ a, x = Except.ok a ∧ f a = Except.ok b := by
  cases x with
  | ok a => exact ⟨a, rfl, h⟩
  | error e => simp [Except.bind] at h

lemma sample_ok_desc (d : TabularDataset) (ns : Nat) (frac : Option ℚ) (sel : List Nat)
    (t : TabularDataset) (h : d.sample ns frac sel = Except.ok t) :
    t.description = d.description := by
  simp only [TabularDataset.sample] at h
  split at h
  · cases h; rfl
  · cases h

lemma get_records_ok_desc (d : TabularDataset) (ids : List Nat) (t : TabularDataset)
    (h : d.get_records ids = Except.ok t) : t.description = d.description := by
  simp only [TabularDataset.get_records] at h
  split at h
  · cases h; rfl
  · cases h

lemma drop_records_ok_desc (d : TabularDataset) (rids : List Label) (n : Nat)
    (draws : List Label) (t : TabularDataset)
    (h : d.drop_records rids n draws = Except.ok t) : t.description = d.description := by
  simp only [TabularDataset.drop_records] at h
  split at h
  · cases h; rfl
  · cases h

lemma add_ok_desc (d other t : TabularDataset) (h : d.add other = Except.ok t) :
    t.description = d.description := by
  simp only [TabularDataset.add] at h
  split at h
  · cases h; rfl
  · cases h

/-- C9: every dataset-producing operation of the algebra (sample,
get_records, drop_records, add_records, replace, empty and +) returns, when
it succeeds, a dataset whose description equals the description of the
receiver. -/
theorem C9_schema_invariant :
    ∀ (d other rin : TabularDataset) (ns n : Nat) (frac : Option ℚ)
      (sel ids : List Nat) (rids rout draws : List Label) (t : TabularDataset),
      (d.sample ns frac sel = Except.ok t → t.description = d.description) ∧
      (d.get_records ids = Except.ok t → t.description = d.description) ∧
      (d.drop_records rids n draws = Except.ok t → t.description = d.description) ∧
      (d.add_records other = Except.ok t → t.description = d.description) ∧
      (d.replace rin rout draws = Except.ok t → t.description = d.description) ∧
      (d.empty = Except.ok t → t.description = d.description) ∧
      (d.add other = Except.ok t → t.description = d.description) := by
  intro d other rin ns n frac sel ids rids rout draws t
  refine ⟨sample_ok_desc d ns frac sel t, get_records_ok_desc d ids t,
    drop_records_ok_desc d rids n draws t, add_ok_desc d other t, ?_,
    get_records_ok_desc d [] t, add_ok_desc d other t⟩
  intro h
  simp only [TabularDataset.replace] at h
  split at h
  · cases h
  · rcases except_bind_ok _ _ _ h with ⟨mid, h1, h2⟩
    rw [add_ok_desc mid rin t h2, drop_records_ok_desc d rout rin.data.length draws mid h1]

/-- C9 witness: all seven operations applied to a one-row dataset. -/
theorem C9_witness :
    ((⟨[], []⟩ : TabularDataset).description = (⟨[(0, [1])], []⟩ : TabularDataset).description) ∧
    ((⟨[], []⟩ : TabularDataset).description = (⟨[(0, [1])], []⟩ : TabularDataset).description) ∧
    ((⟨[], []⟩ : TabularDataset).description = (⟨[(0, [1])], []⟩ : TabularDataset).description) ∧
    ((⟨[(0, [1]), (0, [1])], []⟩ : TabularDataset).description =
      (⟨[(0, [1])], []⟩ : TabularDataset).description) ∧
    ((⟨[(0, [1])], []⟩ : TabularDataset).description =
      (⟨[(0, [1])], []⟩ : TabularDataset).description) ∧
    ((⟨[], []⟩ : TabularDataset).description = (⟨[(0, [1])], []⟩ : TabularDataset).description) ∧
    ((⟨[(0, [1]), (0, [1])], []⟩ : TabularDataset).description =
      (⟨[(0, [1])], []⟩ : TabularDataset).description) := by
  have h := C9_schema_invariant ⟨[(0, [1])], []⟩ ⟨[(0, [1])], []⟩ ⟨[(0, [1])], []⟩
  refine ⟨(h 0 1 none [] [] [0] [0] [] ⟨[], []⟩).1 rfl,
    (h 0 1 none [] [] [0] [0] [] ⟨[], []⟩).2.1 rfl,
    (h 0 1 none [] [] [0] [0] [] ⟨[], []⟩).2.2.1 rfl,
    (h 0 1 none [] [] [0] [0] [] ⟨[(0, [1]), (0, [1])], []⟩).2.2.2.1 rfl,
    (h 0 1 none [] [] [0] [0] [] ⟨[(0, [1])], []⟩).2.2.2.2.1 rfl,
    (h 0 1 none [] [] [0] [0] [] ⟨[], []⟩).2.2.2.2.2.1 rfl,
    (h 0 1 none [] [] [0] [0] [] ⟨[(0, [1]), (0, [1])], []⟩).2.2.2.2.2.2 rfl⟩

end Prive

namespace Prive

lemma keysFirstAux_subset (l : List Row) : ∀ (seen : List Row) (k : Row),
    k ∈ keysFirstAux seen l → k ∈ l := by
  induction l with
  | nil => intro seen k h; simp [keysFirstAux] at h
  | cons r rest ih =>
    intro seen k h
    simp only [keysFirstAux] at h
    split at h
    · exact List.mem_cons_of_mem r (ih seen k h)
    · rcases List.mem_cons.mp h with rfl | h'
      · exact List.mem_cons_self _ _
      · exact List.mem_cons_of_mem r (ih (r :: seen) k h')

lemma keysFirstAux_congr (l : List Row) : ∀ (seen₁ seen₂ : List Row),
    (∀ a ∈ l, (a ∈ seen₁ ↔ a ∈ seen₂)) →
    keysFirstAux seen₁ l = keysFirstAux seen₂ l := by
  induction l with
  | nil => intro seen₁ seen₂ _; rfl
  | cons r rest ih =>
    intro seen₁ seen₂ h
    have hr := h r (by simp)
    simp only [keysFirstAux]
    by_cases hmem : r ∈ seen₁
    · rw [if_pos hmem, if_pos (hr.mp hmem)]
      exact ih seen₁ seen₂ (fun a ha => h a (by simp [ha]))
    · rw [if_neg hmem, if_neg (fun hc => hmem (hr.mpr hc))]
      refine congrArg (fun t => r :: t) (ih (r :: seen₁) (r :: seen₂) ?_)
      intro a ha
      simp [h a (by simp [ha])]
  
lemma keysFirstAux_append_single (l : List Row) : ∀ (seen : List Row) (v : Row),
    (v ∈ seen ∨ v ∈ l) →
    keysFirstAux seen (l ++ [v]) = keysFirstAux seen l := by
  induction l with
  | nil =>
    intro seen v h
    rcases h with h | h
    · simp [keysFirstAux, h]
    · simp at h
  | cons x xs ih =>
    intro seen v h
    simp only [List.cons_append, keysFirstAux]
    by_cases hx : x ∈ seen
    · rw [if_pos hx, if_pos hx]
      refine ih seen v ?_
      rcases h with h | h
      · exact Or.inl h
      · rcases List.mem_cons.mp h with rfl | h'
        · exact Or.inl hx
        · exact Or.inr h'
    · rw [if_neg hx, if_neg hx]
      refine congrArg (fun t => x :: t) (ih (x :: seen) v ?_)
      rcases h with h | h
      · exact Or.inl (List.mem_cons_of_mem x h)
      · rcases List.mem_cons.mp h with rfl | h'
        · exact Or.inl (List.mem_cons_self v seen)
        · exact Or.inr h'

lemma markedPositions_shift (m : List (Row × String)) : ∀ (off : Nat),
    markedPositions m (off + 1) = (markedPositions m off).map (fun j => j + 1) := by
  induction m with
  | nil => intro off; rfl
  | cons p rest ih =>
    intro off
    simp only [markedPositions]
    by_cases hp : p.2 = "both"
    · rw [if_pos hp, if_pos hp]
      simp [ih (off + 1)]
    · rw [if_neg hp, if_neg hp]
      exact ih (off + 1)

lemma markedPositions_none (m : List (Row × String)) : ∀ (off : Nat),
    (∀ p ∈ m, p.2 ≠ "both") → markedPositions m off = [] := by
  induction m with
  | nil => intro off _; rfl
  | cons p rest ih =>
    intro off h
    simp only [markedPositions]
    rw [if_neg (h p (by simp))]
    exact ih (off + 1) (fun q hq => h q (by simp [hq]))

lemma flatMap_congr_mem {α β : Type} (l : List α) (f g : α → List β)
    (h : ∀ a ∈ l, f a = g a) : l.flatMap f = l.flatMap g := by
  induction l with
  | nil => rfl
  | cons a l ih =>
    simp only [List.flatMap_cons]
    rw [h a (by simp), ih (fun b hb => h b (by simp [hb]))]

end Prive

namespace Prive

lemma merge_entry_not_both (left right : List Row) (k : Row) (p : Row × String)
    (hrn : right.countP (fun y => decide (y = k)) = 0)
    (hpk : p ∈ (let ln := left.countP (fun y => decide (y = k));
      let rn := right.countP (fun y => decide (y = k));
      if ln = 0 then List.replicate rn (k, "right_only")
      else if rn = 0 then List.replicate ln (k, "left_only")
      else List.replicate (ln * rn) (k, "both"))) :
    p.2 ≠ "both" := by
  simp only [hrn] at hpk
  split at hpk
  · simp at hpk
  · rw [if_pos trivial] at hpk
    rcases List.mem_replicate.mp hpk with ⟨-, rfl⟩
    show ("left_only" : String) ≠ "both"
    decide

lemma merge_outer_cons_ne (x : Row) (xs : List Row) (v : Row)
    (hxnot : x ∉ xs) (hvx : v ≠ x)
    (hx1 : (x :: xs).countP (fun y => decide (y = x)) = 1) :
    merge_outer (x :: xs) [v] = (x, "left_only") :: merge_outer xs [v] := by
  have e1 : keysFirst ((x :: xs) ++ [v]) = x :: keysFirst (xs ++ [v]) := by
    show keysFirstAux [] (x :: (xs ++ [v])) = _
    simp only [keysFirstAux]
    rw [if_neg (List.not_mem_nil x)]
    rw [keysFirstAux_congr (xs ++ [v]) [x] []
      (fun a ha => by
        simp only [List.mem_singleton, List.not_mem_nil, iff_false]
        intro h
        rcases List.mem_append.mp ha with ha1 | ha2
        · exact hxnot (h ▸ ha1)
        · exact hvx ((List.mem_singleton.mp ha2) ▸ h))]
    rfl
  simp only [merge_outer, e1, List.flatMap_cons]
  have hrn : List.countP (fun y => decide (y = x)) [v] = 0 := by
    simp [List.countP_singleton, hvx]
  have hgx : (let ln := (x :: xs).countP (fun y => decide (y = x));
      let rn := List.countP (fun y => decide (y = x)) [v];
      if ln = 0 then List.replicate rn (x, "right_only")
      else if rn = 0 then List.replicate ln (x, "left_only")
      else List.replicate (ln * rn) (x, "both")) = [(x, "left_only")] := by
    simp [hx1, hrn]
  rw [hgx, List.singleton_append]
  refine congrArg (fun t => (x, "left_only") :: t) ?_
  refine flatMap_congr_mem _ _ _ ?_
  intro k hk
  have hkmem := keysFirstAux_subset _ [] k hk
  have hkx : k ≠ x := by
    intro h
    rcases List.mem_append.mp hkmem with h1 | h2
    · exact hxnot (h ▸ h1)
    · exact hvx ((List.mem_singleton.mp h2) ▸ h)
  have hxk : ¬x = k := fun h => hkx h.symm
  have hcnt : (x :: xs).countP (fun y => decide (y = k)) =
      xs.countP (fun y => decide (y = k)) := by
    rw [List.countP_cons]
    simp [hxk]
  simp only [hcnt]

lemma merge_single_marked (l : List Row) : ∀ (i : Nat) (hi : i < l.length),
    (∀ j (hj : j < l.length), j ≤ i → l.countP (fun y => decide (y = l.get ⟨j, hj⟩)) = 1) →
    markedPositions (merge_outer l [l.get ⟨i, hi⟩]) 0 = [i] := by
  induction l with
  | nil => intro i hi; simp at hi
  | cons x xs ih =>
    intro i hi H
    have hx : (x :: xs).countP (fun y => decide (y = x)) = 1 := by
      have h0 := H 0 (by simp) (Nat.zero_le i)
      simpa using h0
    have hxxs : xs.countP (fun y => decide (y = x)) = 0 := by
      rw [List.countP_cons] at hx
      simpa using hx
    have hxnot : x ∉ xs := by
      intro hmem
      have hpos : 0 < xs.countP (fun y => decide (y = x)) :=
        List.countP_pos_iff.mpr ⟨x, hmem, by simp⟩
      omega
    cases i with
    | zero =>
      have e1 : keysFirst ((x :: xs) ++ [x]) = x :: keysFirst xs := by
        show keysFirstAux [] (x :: (xs ++ [x])) = _
        simp only [keysFirstAux]
        rw [if_neg (List.not_mem_nil x)]
        rw [keysFirstAux_append_single xs [x] x (Or.inl (by simp))]
        rw [keysFirstAux_congr xs [x] []
          (fun a ha => by
            simp only [List.mem_singleton, List.not_mem_nil, iff_false]
            exact fun h => hxnot (h ▸ ha))]
        rfl
      have hv0 : (x :: xs).get ⟨0, hi⟩ = x := rfl
      have hgx : (let ln := (x :: xs).countP (fun y => decide (y = x));
          let rn := List.countP (fun y => decide (y = x)) [x];
          if ln = 0 then List.replicate rn (x, "right_only")
          else if rn = 0 then List.replicate ln (x, "left_only")
          else List.replicate (ln * rn) (x, "both")) = [(x, "both")] := by
        simp [hx, List.countP_singleton]
      rw [hv0]
      simp only [merge_outer, e1, List.flatMap_cons]
      rw [hgx]
      simp only [List.cons_append, List.nil_append]
      simp only [markedPositions, if_pos rfl]
      rw [markedPositions_none _ 1 ?noboth]
      · simp
      case noboth =>
        intro p hp
        rcases List.mem_flatMap.mp hp with ⟨k, hk, hpk⟩
        have hkxs := keysFirstAux_subset xs [] k hk
        have hkx : k ≠ x := fun h => hxnot (h ▸ hkxs)
        have hxk : ¬x = k := fun h => hkx h.symm
        have hrn : List.countP (fun y => decide (y = k)) [x] = 0 := by
          simp [List.countP_singleton, hxk]
        exact merge_entry_not_both (x :: xs) [x] k p hrn hpk
    | succ i2 =>
      have hi2 : i2 < xs.length := by
        have := hi
        simp only [List.length_cons] at this
        omega
      have hv : (x :: xs).get ⟨i2 + 1, hi⟩ = xs.get ⟨i2, hi2⟩ := rfl
      have hvmem : xs.get ⟨i2, hi2⟩ ∈ xs := List.get_mem xs i2 hi2
      have hvx : xs.get ⟨i2, hi2⟩ ≠ x := fun h => hxnot (h ▸ hvmem)
      rw [hv, merge_outer_cons_ne x xs (xs.get ⟨i2, hi2⟩) hxnot hvx hx]
      have H2 : ∀ j (hj : j < xs.length), j ≤ i2 →
          xs.countP (fun y => decide (y = xs.get ⟨j, hj⟩)) = 1 := by
        intro j hj hji
        have hjc : j + 1 < (x :: xs).length := by simp; omega
        have h2 := H (j + 1) hjc (Nat.succ_le_succ hji)
        have hgc : (x :: xs).get ⟨j + 1, hjc⟩ = xs.get ⟨j, hj⟩ := rfl
        rw [hgc, List.countP_cons] at h2
        have hwmem : xs.get ⟨j, hj⟩ ∈ xs := List.get_mem xs j hj
        have hpos : 0 < xs.countP (fun y => decide (y = xs.get ⟨j, hj⟩)) :=
          List.countP_pos_iff.mpr ⟨xs.get ⟨j, hj⟩, hwmem, by simp⟩
        split at h2
        · omega
        · omega
      have ihx := ih i2 hi2 H2
      simp only [markedPositions]
      rw [if_neg (by decide)]
      rw [markedPositions_shift _ 0, ihx]
      rfl

/-- C3 counterexample: on the dataset with row values [1], [2], [1] at labels
0, 1, 2, the round trip from_dataset(D.get_records([1])).get_id(D) returns 2,
not 1: the outer merge groups the duplicated value [1] in front, so the row
[2] sits at merged position 2. -/
theorem C3_counterexample :
    ((TabularDataset.get_records ⟨[(0, [1]), (1, [2]), (2, [1])], []⟩ [1] >>=
        TabularRecord.from_dataset) >>=
      (fun r => r.get_id ⟨[(0, [1]), (1, [2]), (2, [1])], []⟩)) = Except.ok 2 ∧
    (2 : Nat) ≠ 1 :=
  ⟨rfl, by decide⟩

/-- C3 amended: the identity round trip
from_dataset(D.get_records([i])).get_id(D) = i holds provided every row value
occurring at a position up to and including i occurs exactly once in D: the
pandas outer merge groups duplicate keys by first appearance, so an earlier
row value recurring later would shift the merged position of row i. -/
theorem C3_roundtrip_unique_prefix (d : TabularDataset) (i : Nat)
    (hi : i < (Frame.rows d.data).length)
    (H : ∀ j (hj : j < (Frame.rows d.data).length), j ≤ i →
      (Frame.rows d.data).countP
        (fun y => decide (y = (Frame.rows d.data).get ⟨j, hj⟩)) = 1) :
    ((d.get_records [i] >>= TabularRecord.from_dataset) >>=
      (fun r => r.get_id d)) = Except.ok i := by
  have hlen : (Frame.rows d.data).length = d.data.length := by simp [Frame.rows]
  have hi' : i < d.data.length := hlen ▸ hi
  have hb : ∀ {α β : Type} (a : α) (f : α → Except String β),
      (Except.ok a >>= f) = f a := fun a f => rfl
  have hmem : ∀ j ∈ [i], j < d.data.length := by
    intro j hj
    rcases List.mem_singleton.mp hj with rfl
    exact hi'
  have hstep1 : d.get_records [i] = Except.ok ⟨[d.data.get ⟨i, hi'⟩], d.description⟩ := by
    simp only [TabularDataset.get_records, Frame.iloc]
    rw [if_pos hmem]
    simp only [List.filterMap_cons, List.filterMap_nil, List.get?_eq_getElem?]
    rw [List.getElem?_eq_getElem hi']
    rfl
  have hfd : TabularRecord.from_dataset ⟨[d.data.get ⟨i, hi'⟩], d.description⟩ =
      Except.ok ⟨[d.data.get ⟨i, hi'⟩], d.description, (d.data.get ⟨i, hi'⟩).1⟩ := rfl
  have hmm := merge_single_marked (Frame.rows d.data) i hi H
  have hpt : (Frame.rows d.data).get ⟨i, hi⟩ = (d.data.get ⟨i, hi'⟩).2 := by
    simp [Frame.rows]
  rw [hpt] at hmm
  rw [hstep1, hb, hfd, hb]
  simp only [TabularRecord.get_id]
  rw [show Frame.rows [d.data.get ⟨i, hi'⟩] = [(d.data.get ⟨i, hi'⟩).2] from rfl]
  rw [hmm]

/-- C3 witness: the round trip at position 1 of a duplicate-free two-row
dataset. -/
theorem C3_witness :
    ((TabularDataset.get_records ⟨[(0, [1]), (1, [2])], []⟩ [1] >>=
        TabularRecord.from_dataset) >>=
      (fun r => r.get_id ⟨[(0, [1]), (1, [2])], []⟩)) = Except.ok 1 :=
  C3_roundtrip_unique_prefix ⟨[(0, [1]), (1, [2])], []⟩ 1 (by decide) (by decide)


/-- C6 witness: both branches of the concatenation contract at concrete
inputs, with equal and with different descriptions. -/
theorem C6_witness :
    (∃ t, TabularDataset.add ⟨[(0, [1])], []⟩ ⟨[(1, [2])], []⟩ = Except.ok t ∧
      t.data.length = ([(0, [1])] : Frame).length + ([(1, [2])] : Frame).length ∧
      (∀ v : Label × Row, t.data.count v =
        ([(0, [1])] : Frame).count v + ([(1, [2])] : Frame).count v) ∧
      (∀ i, i < ([(0, [1])] : Frame).length → t.data[i]? = ([((0 : Label), [(1 : Value)])] : Frame)[i]?) ∧
      (∀ j : Nat, t.data[([(0, [1])] : Frame).length + j]? = ([((1 : Label), [(2 : Value)])] : Frame)[j]?)) ∧
    TabularDataset.add ⟨[(0, [1])], []⟩ ⟨[], [("a", "b")]⟩ =
      Except.error "AssertionError: Both datasets must have the same data description" :=
  ⟨(C6_concat_union ⟨[(0, [1])], []⟩ ⟨[(1, [2])], []⟩).1 rfl,
   (C6_concat_union ⟨[(0, [1])], []⟩ ⟨[], [("a", "b")]⟩).2 (by decide)⟩

end Prive
